import Mathlib

/-!
Shallow embedding of `src/model/gen_disc.py`.

The file builds Keras computation graphs (a ResNet-style generator, an
EfficientNet-based generator and a PatchGAN discriminator).  Graph
construction in Keras is shape-driven: every layer application either
computes the static output shape of its result tensor or raises at
construction time.  We embed each layer call as a function
`Shape → Option Shape` (per-sample shapes `(height, width, channels)`;
the batch axis is preserved by every layer in the source and is elided),
where `none` models a construction-time error.  Shape formulas follow the
Keras implementations: `Conv2D` with `valid` padding gives
`(h - k) / s + 1` (requires `k ≤ h`), with `same` padding `⌈h / s⌉`;
`Conv2DTranspose` with `valid` padding gives `h * s + max (k - s) 0`,
with `same` padding `h * s`; `MaxPooling2D` (default `valid` padding)
gives `(h - p) / s + 1` (requires `p ≤ h`); `tf.pad` in `REFLECT` mode
requires each padding to be at most the dimension size minus one.
-/

namespace GenDisc

/-- Per-sample tensor shape `(height, width, channels)`. -/
abbrev Shape : Type := ℕ × ℕ × ℕ

/-- Keras padding modes used in the source. -/
inductive Padding where
  | valid : Padding
  | same : Padding
deriving DecidableEq, Repr

/-- Activations appearing in the source (`relu`, `tanh`, `LeakyReLU(0.2)`). -/
inductive Act where
  | relu : Act
  | tanh : Act
  | leakyReLU : ℚ → Act
deriving DecidableEq, Repr

/-- Output length of a `Conv2D` along one spatial dimension
(`keras` `conv_output_length`): `valid` needs the kernel to fit. -/
def convDim (h k s : ℕ) : Padding → Option ℕ
  | .valid => if 1 ≤ k ∧ 1 ≤ s ∧ k ≤ h then some ((h - k) / s + 1) else none
  | .same => if 1 ≤ k ∧ 1 ≤ s then some ((h + s - 1) / s) else none

/-- Output length of a `Conv2DTranspose` along one spatial dimension
(`keras` `deconv_output_length` with no output padding):
`valid` gives `h * s + max (k - s) 0` (truncated subtraction), `same` gives `h * s`. -/
def convTDim (h k s : ℕ) : Padding → Option ℕ
  | .valid => if 1 ≤ k ∧ 1 ≤ s then some (h * s + (k - s)) else none
  | .same => if 1 ≤ k ∧ 1 ≤ s then some (h * s) else none

/-- Output length of a `MaxPooling2D` along one spatial dimension
(default `valid` padding): requires the pool to fit. -/
def poolDim (h p s : ℕ) : Option ℕ :=
  if 1 ≤ s ∧ p ≤ h then some ((h - p) / s + 1) else none

/-- Output length of `tf.pad` in `REFLECT` mode along one dimension:
the padding must be at most the dimension size minus one. -/
def reflectPadDim (h p : ℕ) : Option ℕ :=
  if p ≤ h - 1 then some (h + 2 * p) else none

/-- Shape semantics of `layers.Conv2D(filters, (kh, kw), strides=(sh, sw),
padding, use_bias)`: output channel count is `filters`. -/
def conv2D (filters kh kw sh sw : ℕ) (pad : Padding) (useBias : Bool) (s : Shape) :
    Option Shape := do
  let h ← convDim s.1 kh sh pad
  let w ← convDim s.2.1 kw sw pad
  some (h, w, filters)

/-- Shape semantics of `layers.Conv2DTranspose(filters, (kh, kw),
strides=(sh, sw), padding, use_bias)`. -/
def conv2DTranspose (filters kh kw sh sw : ℕ) (pad : Padding) (useBias : Bool) (s : Shape) :
    Option Shape := do
  let h ← convTDim s.1 kh sh pad
  let w ← convTDim s.2.1 kw sw pad
  some (h, w, filters)

/-- Shape semantics of `layers.MaxPooling2D(pool_size=(ph, pw), strides=(sh, sw))`
with the default `valid` padding: channels are preserved. -/
def maxPooling2D (ph pw sh sw : ℕ) (s : Shape) : Option Shape := do
  let h ← poolDim s.1 ph sh
  let w ← poolDim s.2.1 pw sw
  some (h, w, s.2.2)

/-- Shape semantics of `tfa.layers.InstanceNormalization()`: shape preserving. -/
def instanceNorm (s : Shape) : Option Shape := some s

/-- Shape semantics of the `ReflectionPadding2D` layer's `call`: the stored
`padding` tuple is `(padding_width, padding_height)` and the two spatial
dimensions grow by twice the corresponding margin. -/
def reflectPadShape (pw ph : ℕ) (s : Shape) : Option Shape := do
  let h ← reflectPadDim s.1 ph
  let w ← reflectPadDim s.2.1 pw
  some (h, w, s.2.2)

/-- Broadcast of one dimension in a Keras merge layer
(`_compute_elemwise_op_output_shape`): equal dimensions pass through and a
dimension of `1` broadcasts against the other; anything else is an error. -/
def broadcastDim (a b : ℕ) : Option ℕ :=
  if a = b then some a else if a = 1 then some b else if b = 1 then some a else none

/-- Shape semantics of `layers.add([x, y])` (Keras `Add` merge layer). -/
def addLayer (s t : Shape) : Option Shape := do
  let h ← broadcastDim s.1 t.1
  let w ← broadcastDim s.2.1 t.2.1
  let c ← broadcastDim s.2.2 t.2.2
  some (h, w, c)

/-- Shape semantics of `residual_block(x, activation, kernel_size, strides,
padding, use_bias)`: reflect-pad(1,1) → `Conv2D(dim, …)` → instance-norm →
activation → reflect-pad(1,1) → `Conv2D(dim, …)` → instance-norm → add with
the input, where `dim = x.shape[-1]`.  The activation is pointwise and does
not change the shape. -/
def residual_block (s : Shape) (a : Act) (kh kw sh sw : ℕ) (pad : Padding) (useBias : Bool) :
    Option Shape := do
  let dim := s.2.2
  let x1 ← reflectPadShape 1 1 s
  let x2 ← conv2D dim kh kw sh sw pad useBias x1
  let x3 ← instanceNorm x2
  let x4 ← reflectPadShape 1 1 x3
  let x5 ← conv2D dim kh kw sh sw pad useBias x4
  let x6 ← instanceNorm x5
  addLayer s x6

/-- Shape semantics of `downsample(x, filters, activation, kernel_size, strides,
padding, use_bias)`: `Conv2D` → instance-norm → optional activation. -/
def downsample (s : Shape) (filters : ℕ) (a : Option Act) (kh kw sh sw : ℕ)
    (pad : Padding) (useBias : Bool) : Option Shape := do
  let x1 ← conv2D filters kh kw sh sw pad useBias s
  instanceNorm x1

/-- Shape semantics of `upsample(x, filters, activation, kernel_size, strides,
padding, use_bias)`: `Conv2DTranspose` → instance-norm → optional activation. -/
def upsample (s : Shape) (filters : ℕ) (a : Option Act) (kh kw sh sw : ℕ)
    (pad : Padding) (useBias : Bool) : Option Shape := do
  let x1 ← conv2DTranspose filters kh kw sh sw pad useBias s
  instanceNorm x1

/-- Graph nodes used by the three builders.  Primitive constructors mirror a
single Keras layer; `downsampleB`, `residualB` and `upsampleB` mirror calls to
the corresponding helper functions with the arguments used at the call sites
(those helpers fix `padding="same"`/`"valid"` and `use_bias=False` defaults). -/
inductive Block where
  | reflectPadB (pw ph : ℕ) : Block
  | convB (filters kh kw sh sw : ℕ) (pad : Padding) (useBias : Bool) : Block
  | convTB (filters kh kw sh sw : ℕ) (pad : Padding) (useBias : Bool) : Block
  | instanceNormB : Block
  | activationB (a : Act) : Block
  | maxPoolB (ph pw sh sw : ℕ) : Block
  | downsampleB (filters : ℕ) (a : Act) (kh kw sh sw : ℕ) : Block
  | residualB (a : Act) : Block
  | upsampleB (filters : ℕ) (a : Act) : Block
deriving DecidableEq, Repr

/-- Shape action of one graph node.  `downsampleB`/`upsampleB`/`residualB`
delegate to the helper functions with the defaults from the source signatures
(`downsample`: padding `same`, `use_bias=False`; `residual_block`: kernel
`(3,3)`, strides `(1,1)`, padding `valid`, `use_bias=False`; `upsample`:
kernel `(3,3)`, strides `(2,2)`, padding `same`, `use_bias=False`). -/
def evalBlock : Block → Shape → Option Shape
  | .reflectPadB pw ph, s => reflectPadShape pw ph s
  | .convB f kh kw sh sw pad b, s => conv2D f kh kw sh sw pad b s
  | .convTB f kh kw sh sw pad b, s => conv2DTranspose f kh kw sh sw pad b s
  | .instanceNormB, s => instanceNorm s
  | .activationB _, s => some s
  | .maxPoolB ph pw sh sw, s => maxPooling2D ph pw sh sw s
  | .downsampleB f a kh kw sh sw, s => downsample s f (some a) kh kw sh sw .same false
  | .residualB a, s => residual_block s a 3 3 1 1 .valid false
  | .upsampleB f a, s => upsample s f (some a) 3 3 2 2 .same false

/-- Threads a shape through a list of graph nodes; `none` as soon as one
layer application fails (Keras raises at that point during construction). -/
def evalBlocks : List Block → Shape → Option Shape
  | [], s => some s
  | b :: bs, s => (evalBlock b s).bind (evalBlocks bs)

/-- A built model: its `Input` shape and the chain of graph nodes applied to it. -/
structure Model where
  inputShape : Shape
  blocks : List Block
deriving DecidableEq, Repr

/-- The static shape of the model's output tensor. -/
def Model.outputShape (m : Model) : Option Shape :=
  evalBlocks m.blocks m.inputShape

/-- The downsampling loop of `get_resnet_generator`:
`for _ in range(n): filters *= 2; x = downsample(x, filters, relu)`.
Returns the generated nodes together with the final value of `filters`. -/
def downLoop : ℕ → ℕ → List Block × ℕ
  | 0, f => ([], f)
  | n + 1, f =>
    let f2 := f * 2
    let r := downLoop n f2
    (Block.downsampleB f2 Act.relu 3 3 2 2 :: r.1, r.2)

/-- The upsampling loop of `get_resnet_generator`:
`for _ in range(n): filters //= 2; x = upsample(x, filters, relu)`. -/
def upLoop : ℕ → ℕ → List Block × ℕ
  | 0, f => ([], f)
  | n + 1, f =>
    let f2 := f / 2
    let r := upLoop n f2
    (Block.upsampleB f2 Act.relu :: r.1, r.2)

/-- The graph wired by `get_resnet_generator(filters, num_downsampling_blocks,
num_residual_blocks, num_upsample_blocks)`: reflect-pad(3,3) →
`Conv2D(filters, 7×7, use_bias=False)` → instance-norm → relu → downsampling
loop → residual blocks → upsampling loop → reflect-pad(3,3) → `Conv2D(3, 7×7,
valid)` → tanh.  Source defaults: `filters=64`, blocks `2, 5, 2`. -/
def resnetBlocks (filters nd nr nu : ℕ) : List Block :=
  let pre : List Block :=
    [.reflectPadB 3 3, .convB filters 7 7 1 1 .valid false, .instanceNormB,
     .activationB .relu]
  let down := downLoop nd filters
  let res : List Block := List.replicate nr (.residualB .relu)
  let up := upLoop nu down.2
  pre ++ down.1 ++ res ++ up.1 ++
    [.reflectPadB 3 3, .convB 3 7 7 1 1 .valid true, .activationB .tanh]

/-- The model built by `get_resnet_generator`:
input `(256, 256, 3)` through `resnetBlocks`; `none` models a
construction-time failure of one of the layer applications. -/
def get_resnet_generator (filters nd nr nu : ℕ) : Option Model :=
  let bs := resnetBlocks filters nd nr nu
  match evalBlocks bs (256, 256, 3) with
  | some _ => some ⟨(256, 256, 3), bs⟩
  | none => none

/-- One iteration of the discriminator loop
(`for i in range(3): num_filters *= 2; downsample(..., (4,4), strides 2 if
i < 2 else 1)`). -/
def discLoopStep (i nf : ℕ) : Block :=
  if i < 2 then .downsampleB nf (.leakyReLU (1 / 5)) 4 4 2 2
  else .downsampleB nf (.leakyReLU (1 / 5)) 4 4 1 1

/-- The discriminator loop over the index list `List.range 3`, threading the
`num_filters` doubling. -/
def discLoop : List ℕ → ℕ → List Block × ℕ
  | [], nf => ([], nf)
  | i :: is, nf =>
    let nf2 := nf * 2
    let r := discLoop is nf2
    (discLoopStep i nf2 :: r.1, r.2)

/-- The graph wired by `get_discriminator(filters, ...)`:
`Conv2D(filters, 4×4, strides 2, same)` → `LeakyReLU(0.2)` → three downsample
stages (strides 2, 2, 1; filters doubling) → `Conv2D(1, 4×4, strides 1, same)`.
Note the loop bound is the literal `range(3)`: `num_downsampling` is unused. -/
def discBlocks (filters : ℕ) : List Block :=
  [.convB filters 4 4 2 2 .same true, .activationB (.leakyReLU (1 / 5))]
    ++ (discLoop (List.range 3) filters).1
    ++ [.convB 1 4 4 1 1 .same true]

/-- The model built by `get_discriminator(filters, num_downsampling, name)`.
The source evaluates `name + "_img_input"` for the `Input` layer's name, which
raises `TypeError` when `name` is `None` (the default); this is modelled by
`none`.  `num_downsampling` is accepted but never read. -/
def get_discriminator (filters num_downsampling : ℕ) (name : Option String) :
    Option Model :=
  match name with
  | none => none
  | some _ =>
    let bs := discBlocks filters
    match evalBlocks bs (256, 256, 3) with
    | some _ => some ⟨(256, 256, 3), bs⟩
    | none => none

/-- Modelled from the spec: the pretrained EfficientNetB3 backbone
(`efn.EfficientNetB3(include_top=False, weights="imagenet",
input_shape=(256,256,3))`) is third-party code, not part of this repository.
The spec describes it as a pretrained image-classification encoder that the
generator truncates at an internal layer (`model.layers[-36]`, inside the last
block group, where the 256×256 input has been downsampled by a factor of 32 to
an 8×8 feature map).  Only the spatial size of the truncation point matters to
the decoder's output shape; the channel count is written as 384 but is never
read by any shape computation. -/
def effTruncShape : Shape := (8, 8, 384)

/-- The decoder appended by `efficientnet_generator` after the truncated
backbone: four `Conv2DTranspose` (filters 640, 160, 40, 3; default `valid`
padding, `use_bias=False`) each followed by `MaxPooling2D((2,2), strides
(1,1))` and instance normalization.  No activation layer appears anywhere in
the decoder. -/
def effDecoderBlocks : List Block :=
  [.convTB 640 2 2 2 2 .valid false, .maxPoolB 2 2 1 1, .instanceNormB,
   .convTB 160 4 4 4 4 .valid false, .maxPoolB 2 2 1 1, .instanceNormB,
   .convTB 40 2 2 2 2 .valid false, .maxPoolB 2 2 1 1, .instanceNormB,
   .convTB 3 2 2 2 2 .valid false, .maxPoolB 2 2 1 1, .instanceNormB]

/-- The model built by `efficientnet_generator()`: the spec-modelled backbone
maps the 256×256×3 input to the truncation layer's feature map
(`effTruncShape`), and the decoder `effDecoderBlocks` is applied to it. -/
def efficientnet_generator : Option Model :=
  match evalBlocks effDecoderBlocks effTruncShape with
  | some _ => some ⟨effTruncShape, effDecoderBlocks⟩
  | none => none

/-- Filter count of a transposed-convolution node, `none` on other nodes. -/
def Block.convTFilters : Block → Option ℕ
  | .convTB f _ _ _ _ _ _ => some f
  | _ => none

/-- The activation of an activation node, `none` on other nodes. -/
def Block.actOf : Block → Option Act
  | .activationB a => some a
  | _ => none

/-- A concrete 4D tensor (channels-last) with real entries, for the
value-level semantics of `ReflectionPadding2D.call`. -/
structure Tensor4 where
  batch : ℕ
  h : ℕ
  w : ℕ
  c : ℕ
  val : ℕ → ℕ → ℕ → ℕ → ℝ

/-- Source index selected by `tf.pad` in `REFLECT` mode along a dimension of
size `n` with margin `p`, for output index `i`: the border mirrors around the
edge pixel without repeating it. -/
def reflectIndex (n p i : ℕ) : ℕ :=
  if i < p then p - i else if i < p + n then i - p else 2 * n - 2 + p - i

/-- Value-level semantics of `ReflectionPadding2D.call`: the stored `padding`
tuple is `(padding_width, padding_height)`, and
`tf.pad(input, [[0,0],[ph,ph],[pw,pw],[0,0]], mode="REFLECT")` requires each
margin to be at most the corresponding dimension size minus one (otherwise the
op raises at graph-construction time, modelled by `none`). -/
def ReflectionPadding2D (pw ph : ℕ) (t : Tensor4) : Option Tensor4 :=
  if ph ≤ t.h - 1 ∧ pw ≤ t.w - 1 then
    some ⟨t.batch, t.h + 2 * ph, t.w + 2 * pw, t.c,
      fun b i j ch => t.val b (reflectIndex t.h ph i) (reflectIndex t.w pw j) ch⟩
  else none

/-- The trainable weights of a `ReflectionPadding2D` layer: its `__init__`
only stores the padding tuple and its `call` only invokes `tf.pad`, so the
layer creates no variables at all. -/
def ReflectionPadding2D.trainableWeights : List ℕ := []



/-- A concrete tensor used to exercise `ReflectionPadding2D` on a legal input:
one sample, `3×3` spatial extent, one channel. -/
def padExampleTensor : Tensor4 := ⟨1, 3, 3, 1, fun _ i j _ => (i : ℝ) + 3 * j⟩

/-- A concrete tensor with `1×1` spatial extent, on which the layer's default
padding `(1, 1)` is illegal for reflect-mode `tf.pad`. -/
def padUnitTensor : Tensor4 := ⟨1, 1, 1, 1, fun _ _ _ _ => 0⟩

lemma reflectPadDim_some {h p d : ℕ} (e : reflectPadDim h p = some d) :
    d = h + 2 * p ∧ p ≤ h - 1 := by
  unfold reflectPadDim at e
  split at e
  · exact ⟨(Option.some.inj e).symm, by assumption⟩
  · exact absurd e (by simp)

lemma reflectPadShape_some {pw ph : ℕ} {s t : Shape} (e : reflectPadShape pw ph s = some t) :
    t = (s.1 + 2 * ph, s.2.1 + 2 * pw, s.2.2) ∧ ph ≤ s.1 - 1 ∧ pw ≤ s.2.1 - 1 := by
  simp only [reflectPadShape, bind, Option.bind_eq_some] at e
  obtain ⟨x, ex, y, ey, et⟩ := e
  obtain ⟨rfl, hx⟩ := reflectPadDim_some ex
  obtain ⟨rfl, hy⟩ := reflectPadDim_some ey
  exact ⟨(Option.some.inj et).symm, hx, hy⟩

lemma conv2D_some_channels {f kh kw sh sw : ℕ} {pad : Padding} {b : Bool} {s t : Shape}
    (e : conv2D f kh kw sh sw pad b s = some t) : t.2.2 = f := by
  simp only [conv2D, bind, Option.bind_eq_some] at e
  obtain ⟨x, ex, y, ey, et⟩ := e
  rw [← Option.some.inj et]

lemma broadcastDim_some {a b z : ℕ} (ha : 2 ≤ a) (e : broadcastDim a b = some z) : z = a := by
  unfold broadcastDim at e
  split at e
  · exact (Option.some.inj e).symm
  · split at e
    · omega
    · split at e
      · exact (Option.some.inj e).symm
      · exact absurd e (by simp)

lemma addLayer_some {s t u : Shape} (hh : 2 ≤ s.1) (hw : 2 ≤ s.2.1) (hc : t.2.2 = s.2.2)
    (e : addLayer s t = some u) : u = s := by
  simp only [addLayer, bind, Option.bind_eq_some] at e
  obtain ⟨x, ex, y, ey, z, ez, et⟩ := e
  have hx := broadcastDim_some hh ex
  have hy := broadcastDim_some hw ey
  have hz : z = s.2.2 := by
    rw [hc] at ez
    unfold broadcastDim at ez
    rw [if_pos rfl] at ez
    exact (Option.some.inj ez).symm
  subst hx hy hz
  rw [← Option.some.inj et]

lemma downsample_default_eval (h w c f : ℕ) (a : Option Act) :
    downsample (h, w, c) f a 3 3 2 2 .same false = some ((h + 1) / 2, (w + 1) / 2, f) := by
  simp [downsample, conv2D, convDim, instanceNorm]

lemma upsample_default_eval (h w c f : ℕ) (a : Option Act) :
    upsample (h, w, c) f a 3 3 2 2 .same false = some (h * 2, w * 2, f) := by
  simp [upsample, conv2DTranspose, convTDim, instanceNorm]

lemma evalBlocks_append (l1 l2 : List Block) (s : Shape) :
    evalBlocks (l1 ++ l2) s = (evalBlocks l1 s).bind (evalBlocks l2) := by
  induction l1 generalizing s with
  | nil => simp [evalBlocks]
  | cons b bs ih =>
    simp only [List.cons_append, evalBlocks]
    cases evalBlock b s with
    | none => simp
    | some t => simp [ih]

lemma downLoop_snd (n : ℕ) : ∀ f : ℕ, (downLoop n f).2 = f * 2 ^ n := by
  induction n with
  | zero => intro f; simp [downLoop]
  | succ n ih => intro f; simp [downLoop, ih]; ring

lemma downLoop_eval (n : ℕ) : ∀ f h w : ℕ,
    evalBlocks (downLoop n f).1 (2 ^ n * h, 2 ^ n * w, f) = some (h, w, (downLoop n f).2) := by
  induction n with
  | zero => intro f h w; simp [downLoop, evalBlocks]
  | succ n ih =>
    intro f h w
    have e2 : ∀ x : ℕ, (2 ^ (n + 1) * x + 1) / 2 = 2 ^ n * x := by
      intro x
      have h1 : 2 ^ (n + 1) * x = 2 * (2 ^ n * x) := by ring
      rw [h1]
      omega
    simp only [downLoop, evalBlocks, evalBlock, downsample_default_eval, e2]
    simp only [Option.some_bind]
    exact ih (f * 2) h w

lemma upLoop_eval (n : ℕ) : ∀ f h w : ℕ,
    evalBlocks (upLoop n f).1 (h, w, f) = some (2 ^ n * h, 2 ^ n * w, (upLoop n f).2) := by
  induction n with
  | zero => intro f h w; simp [upLoop, evalBlocks]
  | succ n ih =>
    intro f h w
    simp only [upLoop, evalBlocks, evalBlock, upsample_default_eval]
    simp only [Option.some_bind]
    rw [ih (f / 2) (h * 2) (w * 2)]
    have r1 : 2 ^ n * (h * 2) = 2 ^ (n + 1) * h := by ring
    have r2 : 2 ^ n * (w * 2) = 2 ^ (n + 1) * w := by ring
    rw [r1, r2]

lemma residual_block_default_eval (h w c : ℕ) (a : Act) (hh : 2 ≤ h) (hw : 2 ≤ w) :
    residual_block (h, w, c) a 3 3 1 1 .valid false = some (h, w, c) := by
  obtain ⟨h0, rfl⟩ : ∃ h0, h = h0 + 2 := ⟨h - 2, by omega⟩
  obtain ⟨w0, rfl⟩ : ∃ w0, w = w0 + 2 := ⟨w - 2, by omega⟩
  simp [residual_block, reflectPadShape, reflectPadDim, conv2D, convDim,
    instanceNorm, addLayer, broadcastDim]

lemma residual_loop_eval (nr h w c : ℕ) (a : Act) (hh : 2 ≤ h) (hw : 2 ≤ w) :
    evalBlocks (List.replicate nr (.residualB a)) (h, w, c) = some (h, w, c) := by
  induction nr with
  | zero => rfl
  | succ n ih =>
    simp [List.replicate_succ, evalBlocks, evalBlock,
      residual_block_default_eval h w c a hh hw, ih]

lemma resnet_pre_eval (f : ℕ) :
    evalBlocks [.reflectPadB 3 3, .convB f 7 7 1 1 .valid false, .instanceNormB,
      .activationB .relu] (256, 256, 3) = some (256, 256, f) := by
  simp [evalBlocks, evalBlock, reflectPadShape, reflectPadDim, conv2D, convDim, instanceNorm]

lemma resnet_fin_eval (c : ℕ) :
    evalBlocks [.reflectPadB 3 3, .convB 3 7 7 1 1 .valid true, .activationB .tanh]
      (256, 256, c) = some (256, 256, 3) := by
  simp [evalBlocks, evalBlock, reflectPadShape, reflectPadDim, conv2D, convDim, instanceNorm]

lemma poolDim_two_one {m : ℕ} (hm : 2 ≤ m) : poolDim m 2 1 = some (m - 1) := by
  unfold poolDim
  rw [if_pos ⟨by omega, hm⟩]
  congr 1
  omega

lemma effStage_eval (f k h w c : ℕ) (hk : 2 ≤ k) (hh : 1 ≤ h) (hw : 1 ≤ w) :
    evalBlocks [.convTB f k k k k .valid false, .maxPoolB 2 2 1 1, .instanceNormB] (h, w, c) =
      some (h * k - 1, w * k - 1, f) := by
  have hck : convTDim h k k .valid = some (h * k) := by
    unfold convTDim
    rw [if_pos ⟨by omega, by omega⟩]
    rw [Nat.sub_self, Nat.add_zero]
  have hcw : convTDim w k k .valid = some (w * k) := by
    unfold convTDim
    rw [if_pos ⟨by omega, by omega⟩]
    rw [Nat.sub_self, Nat.add_zero]
  have hhk : 2 ≤ h * k := le_trans hk (Nat.le_mul_of_pos_left k hh)
  have hwk : 2 ≤ w * k := le_trans hk (Nat.le_mul_of_pos_left k hw)
  simp [evalBlocks, evalBlock, conv2DTranspose, maxPooling2D, instanceNorm,
    hck, hcw, poolDim_two_one hhk, poolDim_two_one hwk]

lemma effDecoder_eval (h0 c0 : ℕ) (hh : 1 ≤ h0) :
    evalBlocks effDecoderBlocks (h0, h0, c0) = some (32 * h0 - 23, 32 * h0 - 23, 3) := by
  have hsplit : effDecoderBlocks =
      ([.convTB 640 2 2 2 2 .valid false, .maxPoolB 2 2 1 1, .instanceNormB] ++
       ([.convTB 160 4 4 4 4 .valid false, .maxPoolB 2 2 1 1, .instanceNormB] ++
        ([.convTB 40 2 2 2 2 .valid false, .maxPoolB 2 2 1 1, .instanceNormB] ++
         [.convTB 3 2 2 2 2 .valid false, .maxPoolB 2 2 1 1, .instanceNormB]) :
         List Block) : List Block) := rfl
  rw [hsplit]
  simp only [evalBlocks_append]
  rw [effStage_eval 640 2 h0 h0 c0 (by omega) hh hh]
  simp only [Option.some_bind]
  rw [effStage_eval 160 4 (h0 * 2 - 1) (h0 * 2 - 1) 640 (by omega) (by omega) (by omega)]
  simp only [Option.some_bind]
  rw [effStage_eval 40 2 ((h0 * 2 - 1) * 4 - 1) ((h0 * 2 - 1) * 4 - 1) 160 (by omega)
    (by omega) (by omega)]
  simp only [Option.some_bind]
  rw [effStage_eval 3 2 (((h0 * 2 - 1) * 4 - 1) * 2 - 1) (((h0 * 2 - 1) * 4 - 1) * 2 - 1) 40
    (by omega) (by omega) (by omega)]
  have heq : (((h0 * 2 - 1) * 4 - 1) * 2 - 1) * 2 - 1 = 32 * h0 - 23 := by omega
  rw [heq]

lemma tanh_le_one_aux (x : ℝ) : Real.tanh x ≤ 1 := by
  rw [Real.tanh_eq_sinh_div_cosh]
  exact (div_le_one (Real.cosh_pos x)).2 (Real.sinh_lt_cosh x).le

lemma neg_one_le_tanh_aux (x : ℝ) : -1 ≤ Real.tanh x := by
  have h := tanh_le_one_aux (-x)
  rw [Real.tanh_neg] at h
  linarith

/-- C2: `get_discriminator` with its default arguments (`filters=64`,
`num_downsampling=3`, `name=None`) fails at construction time: the source
evaluates `name + "_img_input"`, which raises `TypeError` for `name=None`,
so no model is returned.  This refutes the spec's requirement that every
builder constructs without raising under defaults. -/
theorem get_discriminator_default_raises : get_discriminator 64 3 none = none := rfl

/-- C10: `get_discriminator` never reads its `num_downsampling` parameter
(the loop bound is the literal `range(3)`), so any two values of it produce
identical models, all other arguments equal. -/
theorem get_discriminator_ignores_num_downsampling (f v1 v2 : ℕ) (nm : Option String) :
    get_discriminator f v1 nm = get_discriminator f v2 nm := rfl

/-- C6: for every `filters` value (and any non-`None` name, which is required
for construction to succeed at all), the discriminator's output is the spatial
logit map `(32, 32, 1)` with `32 < 256`, and the last layer of the graph is the
final 1-channel `4×4` convolution — no activation follows it. -/
theorem get_discriminator_output_patch_map (f nd : ℕ) (nm : String) :
    ∃ m, get_discriminator f nd (some nm) = some m ∧
      m.outputShape = some (32, 32, 1) ∧ 32 < 256 ∧
      m.blocks.getLast? = some (.convB 1 4 4 1 1 .same true) := by
  refine ⟨⟨(256, 256, 3), discBlocks f⟩, rfl, ?_, by decide, rfl⟩
  simp [Model.outputShape, discBlocks, discLoop, discLoopStep, evalBlocks, evalBlock,
    downsample, conv2D, convDim, instanceNorm]

/-- C5: `efficientnet_generator` does not produce a `256×256×3` output: with
the backbone truncated at an `8×8` feature map, the appended decoder yields a
`233×233×3` tensor (each stage maps spatial `h` to `h*k` by the transposed
convolution and then to `h*k - 1` by the stride-1 max-pool, giving
`32*8 - 23 = 233`).  The last conjunct makes the refutation independent of the
modelled truncation point: for every nonzero truncation spatial size `h0` the
decoder outputs spatial size `32*h0 - 23`, which is odd and hence never `256`. -/
theorem efficientnet_generator_output_shape :
    efficientnet_generator.map Model.outputShape = some (some (233, 233, 3)) ∧
    ((233, 233, 3) : Shape) ≠ (256, 256, 3) ∧
    (∀ h0 c0 : ℕ, evalBlocks effDecoderBlocks (h0 + 1, h0 + 1, c0) =
      some (32 * (h0 + 1) - 23, 32 * (h0 + 1) - 23, 3) ∧ 32 * (h0 + 1) - 23 ≠ 256) :=
  ⟨rfl, by decide, fun h0 c0 => ⟨effDecoder_eval (h0 + 1) c0 (by omega), by omega⟩⟩

/-- C8: the decoder appended by `efficientnet_generator` is exactly four
stages of transposed convolution → max-pool → instance normalization, with
strictly decreasing filter counts `640, 160, 40, 3` ending at 3 output
channels; it contains no activation layer at all (in particular no final
`tanh`), ending on an instance normalization, and the built model is the
truncated backbone's feature map followed by this decoder. -/
theorem efficientnet_decoder_structure :
    effDecoderBlocks =
      ([.convTB 640 2 2 2 2 .valid false, .maxPoolB 2 2 1 1, .instanceNormB] ++
       [.convTB 160 4 4 4 4 .valid false, .maxPoolB 2 2 1 1, .instanceNormB] ++
       [.convTB 40 2 2 2 2 .valid false, .maxPoolB 2 2 1 1, .instanceNormB] ++
       [.convTB 3 2 2 2 2 .valid false, .maxPoolB 2 2 1 1, .instanceNormB] : List Block) ∧
    effDecoderBlocks.filterMap Block.convTFilters = [640, 160, 40, 3] ∧
    (160 < 640 ∧ 40 < 160 ∧ 3 < 40) ∧
    effDecoderBlocks.getLast? = some .instanceNormB ∧
    effDecoderBlocks.filterMap Block.actOf = [] ∧
    efficientnet_generator = some ⟨effTruncShape, effDecoderBlocks⟩ :=
  ⟨rfl, rfl, by decide, rfl, rfl, rfl⟩

/-- C4 counterexample: the spec's round-trip claim is quantified over every
input tensor, but on an odd spatial size it fails: a `3×3×1` input is
downsampled to `2×2` (`⌈3/2⌉`) and upsampled back to `4×4`, not `3×3`. -/
theorem downsample_upsample_claim_cex :
    (downsample (3, 3, 1) 1 none 3 3 2 2 .same false).bind
      (fun s1 => upsample s1 1 none 3 3 2 2 .same false) = some (4, 4, 1) ∧ 4 ≠ 3 :=
  ⟨by decide, by decide⟩

/-- C4 (amended): for every input whose two spatial dimensions are even,
`downsample` followed by `upsample` with matching filters (defaults: kernel
`3×3`, strides `(2,2)`, padding `same`) returns to the original spatial
resolution, with the matched filter count as channels. -/
theorem downsample_upsample_roundtrip (h w c f : ℕ) (a1 a2 : Option Act)
    (hh : Even h) (hw : Even w) :
    (downsample (h, w, c) f a1 3 3 2 2 .same false).bind
      (fun s1 => upsample s1 f a2 3 3 2 2 .same false) = some (h, w, f) := by
  simp [downsample_default_eval, upsample_default_eval]
  obtain ⟨k, rfl⟩ := hh
  obtain ⟨l, rfl⟩ := hw
  constructor
  · omega
  · omega

/-- C4 witness: the round-trip at the concrete even input `256×256×3` with
filters 64. -/
theorem downsample_upsample_roundtrip_witness :
    Even 256 ∧ (downsample (256, 256, 3) 64 none 3 3 2 2 .same false).bind
      (fun s1 => upsample s1 64 none 3 3 2 2 .same false) = some (256, 256, 64) :=
  ⟨by decide, downsample_upsample_roundtrip 256 256 3 64 none none (by decide) (by decide)⟩

/-- C3: whenever `residual_block` constructs (for any activation, kernel size,
strides, padding mode and bias flag accepted by its layers), the resulting
tensor has exactly the shape of the input — same spatial extent and same
channel count.  The channel count is forced because both convolutions use
`dim = x.shape[-1]` as filter count, and the final `layers.add` merge requires
its two inputs to agree (up to broadcast of a dimension of 1, which cannot
enlarge the input because the reflect padding already forces spatial size ≥ 2). -/
theorem residual_block_preserves_shape (s : Shape) (a : Act) (kh kw sh sw : ℕ)
    (pad : Padding) (ub : Bool) (s' : Shape)
    (e : residual_block s a kh kw sh sw pad ub = some s') : s' = s := by
  simp only [residual_block, instanceNorm, bind, Option.bind_eq_some, Option.some.injEq] at e
  obtain ⟨x1, e1, x2, e2, x3, e3, x4, e4, x5, e5, x6, e6, eadd⟩ := e
  obtain ⟨-, hh, hw⟩ := reflectPadShape_some e1
  have hc5 := conv2D_some_channels e5
  subst e3 e6
  exact addLayer_some (by omega) (by omega) hc5 eadd

/-- C3 witness: the default configuration on an `8×8×4` input constructs and
returns an `8×8×4` tensor. -/
theorem residual_block_preserves_shape_witness :
    residual_block (8, 8, 4) .relu 3 3 1 1 .valid false = some (8, 8, 4) ∧
    ((8, 8, 4) : Shape) = (8, 8, 4) :=
  ⟨by decide,
    residual_block_preserves_shape (8, 8, 4) .relu 3 3 1 1 .valid false (8, 8, 4) (by decide)⟩

/-- C1 counterexample: the spec's claim is quantified over every valid
parameter combination, but with `num_downsampling_blocks = 1` and
`num_upsample_blocks = 0` the generator constructs successfully and outputs
`128×128×3`, not the input shape `256×256×3`. -/
theorem resnet_generator_claim_cex :
    (get_resnet_generator 64 1 0 0).map Model.outputShape = some (some (128, 128, 3)) ∧
    ((128, 128, 3) : Shape) ≠ (256, 256, 3) := ⟨rfl, by decide⟩

/-- C1 (amended): whenever `num_downsampling_blocks = num_upsample_blocks ≤ 8`
(and `≤ 7` when there is at least one residual block, so that the residual
blocks' reflect padding stays legal on the shrunken feature map),
`get_resnet_generator` constructs for every `filters` value and its output
shape equals its input shape `(256, 256, 3)`. -/
theorem resnet_generator_output_matches_input (f nd nr nu : ℕ)
    (hdu : nd = nu) (hd8 : nd ≤ 8) (hre : 1 ≤ nr → nd ≤ 7) :
    ∃ m, get_resnet_generator f nd nr nu = some m ∧
      m.inputShape = (256, 256, 3) ∧ m.outputShape = some (256, 256, 3) := by
  subst hdu
  have hpow : 2 ^ nd * 2 ^ (8 - nd) = 256 := by
    rw [← pow_add]
    have : nd + (8 - nd) = 8 := by omega
    rw [this]
    norm_num
  have e1 : evalBlocks (downLoop nd f).1 (256, 256, f) =
      some (2 ^ (8 - nd), 2 ^ (8 - nd), f * 2 ^ nd) := by
    have h256 : (256 : ℕ) = 2 ^ nd * 2 ^ (8 - nd) := hpow.symm
    rw [show ((256 : ℕ), (256 : ℕ), f) = (2 ^ nd * 2 ^ (8 - nd), 2 ^ nd * 2 ^ (8 - nd), f) from by
      rw [← h256]]
    rw [downLoop_eval, downLoop_snd]
  have e2 : evalBlocks (List.replicate nr (Block.residualB .relu))
      (2 ^ (8 - nd), 2 ^ (8 - nd), f * 2 ^ nd) =
      some (2 ^ (8 - nd), 2 ^ (8 - nd), f * 2 ^ nd) := by
    rcases Nat.eq_zero_or_pos nr with rfl | hpos
    · rfl
    · have hnd7 : nd ≤ 7 := hre hpos
      have hge : 2 ≤ 2 ^ (8 - nd) := by
        calc (2 : ℕ) = 2 ^ 1 := rfl
        _ ≤ 2 ^ (8 - nd) := Nat.pow_le_pow_right (by omega) (by omega)
      exact residual_loop_eval nr _ _ _ _ hge hge
  have e3 : evalBlocks (upLoop nd (downLoop nd f).2).1
      (2 ^ (8 - nd), 2 ^ (8 - nd), f * 2 ^ nd) =
      some (256, 256, (upLoop nd (downLoop nd f).2).2) := by
    rw [← downLoop_snd nd f, upLoop_eval, downLoop_snd nd f, hpow]
  have key : evalBlocks (resnetBlocks f nd nr nd) (256, 256, 3) = some (256, 256, 3) := by
    simp only [resnetBlocks, evalBlocks_append]
    simp [resnet_pre_eval, e1, e2, e3, resnet_fin_eval]
  refine ⟨⟨(256, 256, 3), resnetBlocks f nd nr nd⟩, ?_, rfl, key⟩
  simp only [get_resnet_generator, key]

/-- C1 witness: the amended statement at the source defaults
`filters=64, 2 downsampling, 5 residual, 2 upsampling blocks`. -/
theorem resnet_generator_output_matches_input_witness :
    ((2 : ℕ) = 2 ∧ (2 : ℕ) ≤ 8 ∧ ((1 : ℕ) ≤ 5 → (2 : ℕ) ≤ 7)) ∧
    ∃ m, get_resnet_generator 64 2 5 2 = some m ∧
      m.inputShape = (256, 256, 3) ∧ m.outputShape = some (256, 256, 3) :=
  ⟨⟨rfl, by decide, fun h => by decide⟩,
    resnet_generator_output_matches_input 64 2 5 2 rfl (by decide) (fun h => by decide)⟩

/-- C7: under the source defaults (`filters` arbitrary, `N=2` downsampling,
`M=5` residual, `K=2` upsampling blocks) the generator wires exactly the
sequence input → reflect-pad(3,3) → 7×7 conv → instance-norm → ReLU → two
downsampling blocks with doubling filters (`2f`, `4f`) → five residual blocks
→ two upsampling blocks with halving filters (`2f`, `f`) → reflect-pad(3,3) →
7×7 conv to 3 channels → tanh; at the default `filters=64` the model
constructs with output shape `256×256×3`; the final layer is the tanh
activation, and tanh maps every real pre-activation value into `[-1, 1]`, so
every component of the output tensor lies in `[-1, 1]`. -/
theorem resnet_generator_layer_sequence :
    (∀ f : ℕ, resnetBlocks f 2 5 2 =
      [.reflectPadB 3 3, .convB f 7 7 1 1 .valid false, .instanceNormB, .activationB .relu,
       .downsampleB (f * 2) .relu 3 3 2 2, .downsampleB (f * 2 * 2) .relu 3 3 2 2,
       .residualB .relu, .residualB .relu, .residualB .relu, .residualB .relu, .residualB .relu,
       .upsampleB (f * 2) .relu, .upsampleB f .relu,
       .reflectPadB 3 3, .convB 3 7 7 1 1 .valid true, .activationB .tanh]) ∧
    (get_resnet_generator 64 2 5 2).map Model.outputShape = some (some (256, 256, 3)) ∧
    (∀ f : ℕ, (resnetBlocks f 2 5 2).getLast? = some (.activationB .tanh)) ∧
    (∀ v : ℝ, -1 ≤ Real.tanh v ∧ Real.tanh v ≤ 1) := by
  have hseq : ∀ f : ℕ, resnetBlocks f 2 5 2 =
      [.reflectPadB 3 3, .convB f 7 7 1 1 .valid false, .instanceNormB, .activationB .relu,
       .downsampleB (f * 2) .relu 3 3 2 2, .downsampleB (f * 2 * 2) .relu 3 3 2 2,
       .residualB .relu, .residualB .relu, .residualB .relu, .residualB .relu, .residualB .relu,
       .upsampleB (f * 2) .relu, .upsampleB f .relu,
       .reflectPadB 3 3, .convB 3 7 7 1 1 .valid true, .activationB .tanh] := by
    intro f
    have e1 : f * 2 * 2 / 2 = f * 2 := by omega
    have e2 : f * 2 * 2 / 2 / 2 = f := by omega
    simp [resnetBlocks, downLoop, upLoop, List.replicate, e1, e2]
  refine ⟨hseq, rfl, fun f => ?_, fun v => ⟨neg_one_le_tanh_aux v, tanh_le_one_aux v⟩⟩
  rw [hseq f]
  rfl

/-- C9 counterexample: the spec's claim is quantified over every 4D input and
every padding pair, but `tf.pad` in `REFLECT` mode requires each margin to be
at most the dimension size minus one: on a `1×1×1×1` tensor the layer's own
default padding `(1, 1)` raises instead of returning a padded tensor. -/
theorem reflection_padding_claim_cex :
    ReflectionPadding2D 1 1 padUnitTensor = none := by
  simp [ReflectionPadding2D, padUnitTensor]

/-- C9 (amended): for every 4D tensor and every padding pair with
`width_pad < width` and `height_pad < height` (the constraint of reflect-mode
`tf.pad`), `ReflectionPadding2D` returns a tensor of shape
`(batch, height + 2*height_pad, width + 2*width_pad, channels)` whose every
entry is the input entry at the reflection-mapped indices — borders mirror the
edge pixels rather than being zero-filled — and the layer holds no trainable
parameters. -/
theorem reflection_padding_pads_and_mirrors (t : Tensor4) (pw ph : ℕ)
    (hh : ph < t.h) (hw : pw < t.w) :
    ∃ u, ReflectionPadding2D pw ph t = some u ∧
      u.batch = t.batch ∧ u.h = t.h + 2 * ph ∧ u.w = t.w + 2 * pw ∧ u.c = t.c ∧
      (∀ b i j ch, u.val b i j ch =
        t.val b (reflectIndex t.h ph i) (reflectIndex t.w pw j) ch) ∧
      ReflectionPadding2D.trainableWeights = [] := by
  refine ⟨⟨t.batch, t.h + 2 * ph, t.w + 2 * pw, t.c,
    fun b i j ch => t.val b (reflectIndex t.h ph i) (reflectIndex t.w pw j) ch⟩,
    ?_, rfl, rfl, rfl, rfl, fun b i j ch => rfl, rfl⟩
  unfold ReflectionPadding2D
  rw [if_pos ⟨by omega, by omega⟩]

/-- C9 witness: padding `(1,1)` on a concrete `1×3×3×1` tensor. -/
theorem reflection_padding_pads_and_mirrors_witness :
    1 < padExampleTensor.h ∧ 1 < padExampleTensor.w ∧
    ∃ u, ReflectionPadding2D 1 1 padExampleTensor = some u ∧
      u.batch = padExampleTensor.batch ∧ u.h = padExampleTensor.h + 2 * 1 ∧
      u.w = padExampleTensor.w + 2 * 1 ∧ u.c = padExampleTensor.c ∧
      (∀ b i j ch, u.val b i j ch = padExampleTensor.val b
        (reflectIndex padExampleTensor.h 1 i) (reflectIndex padExampleTensor.w 1 j) ch) ∧
      ReflectionPadding2D.trainableWeights = [] :=
  ⟨by decide, by decide,
    reflection_padding_pads_and_mirrors padExampleTensor 1 1 (by decide) (by decide)⟩

end GenDisc
